import Mathlib

/-!
Shallow embedding of the timeline-merging core (`src/services/bsky.ts`) of the
repository: `resolveHandle`, `getFollows`, `getAuthorFeed`, `getMergedTimeline`
and `getUserTimeline`.  The external `@atproto/api` agent is modelled as an
`Env` of pure collaborator functions; each network call is a lookup in that
environment, and the requests issued by `getMergedTimeline` are recorded in
a trace so that properties about which account is queried with which cursor
can be stated.  JavaScript `Map<string, string>` values are modelled as
association lists with `Map.get` / `Map.set` semantics, and
`new Date(s).getTime()` is modelled by the environment function `Env.getTime`.
-/

/-- A moderation label on a profile (only its `val` field is inspected). -/
structure Label where
  val : String
deriving Repr, DecidableEq

/-- A followed profile as returned by `app.bsky.graph.getFollows`:
`did`, `handle` and the optional `labels` array (absent models `undefined`). -/
structure Profile where
  did : String
  handle : String
  labels : Option (List Label)
deriving Repr, DecidableEq

/-- Author snapshot embedded in a post (`post.author` upstream and the
`author` field of the projected `Post`). -/
structure Author where
  did : String
  handle : String
  displayName : Option String
  avatar : Option String
deriving Repr, DecidableEq

/-- The `record` payload of a post.  The dynamically typed `facets` array is
opaque to this code (it is only copied through), so it is modelled as an
uninterpreted optional value. -/
structure PostRecord where
  text : String
  createdAt : String
  facets : Option String
deriving Repr, DecidableEq

/-- The actor snapshot inside a repost reason (`reason.by` upstream), which is
also the shape of the projected `repostedBy` field. -/
structure ReasonBy where
  did : String
  handle : String
  displayName : Option String
deriving Repr, DecidableEq

/-- The `reason` tag attached to a raw feed entry.  Its `$type` discriminator
is the string inspected by the projection. -/
structure Reason where
  «$type» : String
  «by» : ReasonBy
deriving Repr, DecidableEq

/-- The post carried by a raw feed entry (`f.post` upstream).  The dynamically
typed `embed` payload is opaque to this code and modelled as an uninterpreted
optional value. -/
structure RawPost where
  uri : String
  cid : String
  author : Author
  record : PostRecord
  embed : Option String
  indexedAt : String
deriving Repr, DecidableEq

/-- One raw feed entry returned by `app.bsky.feed.getAuthorFeed`: the source
post plus the optional repost reason. -/
structure FeedEntry where
  post : RawPost
  reason : Option Reason
deriving Repr, DecidableEq

/-- The data of a `getAuthorFeed` response: the feed page and the optional
continuation cursor. -/
structure FeedResponse where
  feed : List FeedEntry
  cursor : Option String
deriving Repr, DecidableEq

/-- The projected `Post` interface exported by the module. -/
structure Post where
  uri : String
  cid : String
  author : Author
  record : PostRecord
  embed : Option String
  indexedAt : String
  repostedBy : Option ReasonBy
deriving Repr, DecidableEq

/-- A JavaScript `Map<string, string>` value, modelled as an association list
in insertion order. -/
abbrev CursorMap := List (String × String)

/-- `Map.prototype.get`: the value stored at the first (unique) occurrence of
the key, or absent. -/
def mapGet : CursorMap → String → Option String
  | [], _ => none
  | (k', v') :: rest, k => if k' == k then some v' else mapGet rest k

/-- `Map.prototype.set`: update the value at an existing key in place, else
append a new entry. -/
def mapSet : CursorMap → String → String → CursorMap
  | [], k, v => [(k, v)]
  | (k', v') :: rest, k, v =>
      if k' == k then (k', v) :: rest else (k', v') :: mapSet rest k v

/-- One `getAuthorFeed` request issued by the merger: the actor queried, the
page limit and the cursor passed along. -/
structure FeedRequest where
  actor : String
  limit : Nat
  cursor : Option String
deriving Repr, DecidableEq

/-- The external `@atproto/api` agent, modelled as pure collaborator
functions.  `resolveHandleApi` is `agent.resolveHandle` (returning the data
`did`), `getFollowsApi` is `agent.app.bsky.graph.getFollows` (returning the
data `follows`), `getAuthorFeedApi` is `agent.app.bsky.feed.getAuthorFeed`
(actor, limit, optional cursor), and `getTime` models
`new Date(s).getTime()` on `indexedAt` strings.  A rejected promise is an
`Except.error`. -/
structure Env where
  resolveHandleApi : String → Except String String
  getFollowsApi : String → Nat → Except String (List Profile)
  getAuthorFeedApi : String → Nat → Option String → Except String FeedResponse
  getTime : String → Int

/-- JavaScript `String.prototype.startsWith`, on the character data. -/
def strStartsWith (s pre : String) : Bool := pre.data.isPrefixOf s.data

/-- `resolveHandle`: return the input unchanged when it already starts with
`"did:"`, otherwise resolve it through the collaborator. -/
def resolveHandle (env : Env) (handle : String) : Except String String :=
  if strStartsWith handle "did:" then Except.ok handle
  else env.resolveHandleApi handle

/-- `getFollows`: one page of at most 50 follows for an actor. -/
def getFollows (env : Env) (actor : String) : Except String (List Profile) :=
  env.getFollowsApi actor 50

/-- `getAuthorFeed`: one page of an actor's feed, no cursor. -/
def getAuthorFeed (env : Env) (actor : String) (limit : Nat) :
    Except String (List FeedEntry) :=
  (env.getAuthorFeedApi actor limit none).map FeedResponse.feed

/-- The follow filter of `getMergedTimeline`: keep a profile when
`profile.labels == null` or no label has `val === "!no-unauthenticated"`. -/
def visibleProfile (profile : Profile) : Bool :=
  match profile.labels with
  | none => true
  | some ls => !(ls.any (fun label => label.val == "!no-unauthenticated"))

/-- The projection of a raw feed entry into a `Post`, shared by
`getMergedTimeline` and `getUserTimeline`: copy the post fields and populate
`repostedBy` from `reason.by` exactly when
`f.reason?.$type === 'app.bsky.feed.defs#skeletonReasonRepost'`. -/
def projectEntry (f : FeedEntry) : Post :=
  { uri := f.post.uri
    cid := f.post.cid
    author :=
      { did := f.post.author.did
        handle := f.post.author.handle
        displayName := f.post.author.displayName
        avatar := f.post.author.avatar }
    record := f.post.record
    embed := f.post.embed
    indexedAt := f.post.indexedAt
    repostedBy :=
      match f.reason with
      | some r =>
          if r.«$type» == "app.bsky.feed.defs#skeletonReasonRepost" then
            some { did := r.«by».did
                   handle := r.«by».handle
                   displayName := r.«by».displayName }
          else none
      | none => none }

/-- The optional-chaining lookup `cursorMap?.get(d)`: absent when the map
itself is absent or has no entry for `d`. -/
def cursorFor (cursorMap : Option CursorMap) (d : String) : Option String :=
  match cursorMap with
  | some m => mapGet m d
  | none => none

/-- The `getAuthorFeed` request built for one followed profile inside a
batch: its own `did`, the per-account limit 10, and `cursorMap?.get(f.did)`. -/
def mkRequest (cursorMap : Option CursorMap) (f : Profile) : FeedRequest :=
  { actor := f.did
    limit := 10
    cursor := cursorFor cursorMap f.did }

/-- One promise of `feedPromises`: issue the per-account request; on success
return the feed page and the returned cursor, on rejection (`catch`) return an
empty feed and no cursor. -/
def fetchAccount (env : Env) (cursorMap : Option CursorMap) (f : Profile) :
    FeedRequest × List FeedEntry × Option String :=
  let req := mkRequest cursorMap f
  match env.getAuthorFeedApi req.actor req.limit req.cursor with
  | Except.ok res => (req, res.feed, res.cursor)
  | Except.error _ => (req, [], none)

/-- `Promise.all(feedPromises)` for one batch: fetch every profile of the
batch, record each returned cursor in the new cursor map
(`newCursorMap.set(f.did, cursor)`), and concatenate the feed pages in the
batch's input order.  Returns the requests issued, the flat feed page list
(`batchFeeds.flat()`) and the updated new cursor map. -/
def processBatch (env : Env) (cursorMap : Option CursorMap) :
    List Profile → CursorMap → List FeedRequest × List FeedEntry × CursorMap
  | [], ncm => ([], [], ncm)
  | f :: rest, ncm =>
      let fa := fetchAccount env cursorMap f
      let ncm1 :=
        match fa.2.2 with
        | some c => mapSet ncm f.did c
        | none => ncm
      let t := processBatch env cursorMap rest ncm1
      (fa.1 :: t.1, fa.2.1 ++ t.2.1, t.2.2)

/-- One iteration of the batching loop body: process the batch, then filter
out entries whose post author is the root `did` and project the remainder
into `Post`s (`batchPosts`). -/
def stepBatch (env : Env) (did : String) (cursorMap : Option CursorMap)
    (batch : List Profile) (ncm : CursorMap) :
    List FeedRequest × List Post × CursorMap :=
  let r := processBatch env cursorMap batch ncm
  (r.1, (r.2.1.filter (fun f => f.post.author.did != did)).map projectEntry, r.2.2)

/-- The batching loop `for (let i = 0; i < follows.length; i += batchSize)`
with `batchSize = 5`: slice off the next five follows, run the batch, append
its posts to the accumulated list, and continue with the remaining follows.
A final slice of fewer than five follows forms the last batch. -/
def mergeLoop (env : Env) (did : String) (cursorMap : Option CursorMap) :
    List Profile → CursorMap → List FeedRequest × List Post × CursorMap
  | [], ncm => ([], [], ncm)
  | [a], ncm => stepBatch env did cursorMap [a] ncm
  | [a, b], ncm => stepBatch env did cursorMap [a, b] ncm
  | [a, b, c], ncm => stepBatch env did cursorMap [a, b, c] ncm
  | [a, b, c, d], ncm => stepBatch env did cursorMap [a, b, c, d] ncm
  | a :: b :: c :: d :: e :: rest, ncm =>
      let s := stepBatch env did cursorMap [a, b, c, d, e] ncm
      let t := mergeLoop env did cursorMap rest s.2.2
      (s.1 ++ t.1, s.2.1 ++ t.2.1, t.2.2)

/-- The result record returned by `getMergedTimeline`. -/
structure MergedResult where
  posts : List Post
  cursorMap : CursorMap
deriving Repr, DecidableEq

/-- A run of `getMergedTimeline` together with the trace of the
`getAuthorFeed` requests it issued, in issue order. -/
structure MergedRun where
  requests : List FeedRequest
  result : MergedResult
deriving Repr, DecidableEq

/-- The comparator of the final sort, `(a, b) => new Date(b.indexedAt).getTime()
- new Date(a.indexedAt).getTime()`: `a` precedes `b` when `b`'s parsed
timestamp is at most `a`'s. -/
def postLE (env : Env) (a b : Post) : Prop :=
  env.getTime b.indexedAt ≤ env.getTime a.indexedAt

instance (env : Env) : DecidableRel (postLE env) := fun a b =>
  inferInstanceAs (Decidable (env.getTime b.indexedAt ≤ env.getTime a.indexedAt))

/-- `getMergedTimeline`, instrumented with the request trace: resolve the
handle, fetch one page of at most 30 follows, drop the profiles hidden behind
the `!no-unauthenticated` label, run the batching loop starting from a fresh
empty cursor map, and sort the accumulated posts by parsed `indexedAt`
descending (the stable comparator sort of `Array.prototype.sort` is modelled
by the stable `List.insertionSort`).  A failure of the resolution or of the
follows fetch rejects the whole call. -/
def getMergedTimelineRun (env : Env) (handle : String)
    (cursorMap : Option CursorMap) : Except String MergedRun :=
  match resolveHandle env handle with
  | Except.error e => Except.error e
  | Except.ok did =>
      match env.getFollowsApi did 30 with
      | Except.error e => Except.error e
      | Except.ok follows0 =>
          let follows := follows0.filter visibleProfile
          let r := mergeLoop env did cursorMap follows []
          let sortedPosts := List.insertionSort (postLE env) r.2.1
          Except.ok
            { requests := r.1
              result := { posts := sortedPosts, cursorMap := r.2.2 } }

/-- `getMergedTimeline` as exported: the merged posts and the new cursor map. -/
def getMergedTimeline (env : Env) (handle : String)
    (cursorMap : Option CursorMap) : Except String MergedResult :=
  (getMergedTimelineRun env handle cursorMap).map MergedRun.result

/-- `getUserTimeline`: one feed page of 20 entries for the actor, projected
into `Post`s entrywise (same projection as the merger, no re-sort). -/
def getUserTimeline (env : Env) (actor : String) : Except String (List Post) :=
  (getAuthorFeed env actor 20).map (fun feed => feed.map projectEntry)

/-- The feed page contributed by one followed profile, as a function of the
environment: what its `getAuthorFeed` call returns on success, `[]` on
rejection. -/
def feedOf (env : Env) (cursorMap : Option CursorMap) (f : Profile) :
    List FeedEntry :=
  (fetchAccount env cursorMap f).2.1

/-- The continuation token recorded for a queried `did`: the cursor of its
`getAuthorFeed` response on success (queried with the `did`'s own entry of
the input cursor map), absent on rejection. -/
def tokenOf (env : Env) (cursorMap : Option CursorMap) (d : String) :
    Option String :=
  match env.getAuthorFeedApi d 10 (cursorFor cursorMap d) with
  | Except.ok res => res.cursor
  | Except.error _ => none

/-- The partition of the follow list into consecutive batches of five used by
the loop of `getMergedTimeline`; the final batch keeps the remainder. -/
def chunksOf5 {α : Type _} : List α → List (List α)
  | [] => []
  | [a] => [[a]]
  | [a, b] => [[a, b]]
  | [a, b, c] => [[a, b, c]]
  | [a, b, c, d] => [[a, b, c, d]]
  | a :: b :: c :: d :: e :: rest => [a, b, c, d, e] :: chunksOf5 rest

/-- Modelled from the spec's words for §4.3 batch processing: process the
batches sequentially, thread the cursor map through, and concatenate the
per-batch requests and posts in batch order. -/
def chunkFold (env : Env) (did : String) (cursorMap : Option CursorMap) :
    List (List Profile) → CursorMap → List FeedRequest × List Post × CursorMap
  | [], ncm => ([], [], ncm)
  | batch :: rest, ncm =>
      let s := stepBatch env did cursorMap batch ncm
      let t := chunkFold env did cursorMap rest s.2.2
      (s.1 ++ t.1, s.2.1 ++ t.2.1, t.2.2)

/-- The batch sizes produced by slicing a list of `n` follows into batches of
five: all batches have size five except a final remainder batch. -/
def batchSizes : Nat → List Nat
  | 0 => []
  | 1 => [1]
  | 2 => [2]
  | 3 => [3]
  | 4 => [4]
  | n + 5 => 5 :: batchSizes n

/-! ### A concrete world used to instantiate the theorems -/

/-- A followed profile with no labels. -/
def pA : Profile := { did := "did:plc:a", handle := "a.test", labels := none }

/-- A followed profile with an empty label array. -/
def pB : Profile := { did := "did:plc:b", handle := "b.test", labels := some [] }

/-- A followed profile hidden behind the authentication-required label. -/
def pC : Profile :=
  { did := "did:plc:c", handle := "c.test"
    labels := some [{ val := "!no-unauthenticated" }] }

/-- A plain (non-repost) feed entry authored by `d`, indexed at `ts`. -/
def entryW (d ts : String) : FeedEntry :=
  { post :=
      { uri := "at://" ++ d ++ "/" ++ ts
        cid := "cid-" ++ ts
        author := { did := d, handle := d, displayName := none, avatar := none }
        record := { text := "hello", createdAt := ts, facets := none }
        embed := none
        indexedAt := ts }
    reason := none }

/-- A feed entry whose post is authored by the root account but which appears
in profile `a.test`'s feed as a repost by `did:plc:a`. -/
def entryRootByA : FeedEntry :=
  { post :=
      { uri := "at://did:plc:root/t9"
        cid := "cid-t9"
        author :=
          { did := "did:plc:root", handle := "root.test"
            displayName := none, avatar := none }
        record := { text := "root says", createdAt := "t9", facets := none }
        embed := none
        indexedAt := "t9" }
    reason := some
      { «$type» := "app.bsky.feed.defs#skeletonReasonRepost"
        «by» := { did := "did:plc:a", handle := "a.test", displayName := none } } }

/-- A concrete environment: `root.test` resolves to `did:plc:root`, which
follows `pA`, `pB` and `pC`; `pA`'s feed has a post and a repost of the root
and returns a cursor, `pB`'s feed has one post and no cursor, and every other
feed fetch fails. -/
def envW : Env :=
  { resolveHandleApi := fun h =>
      if h == "root.test" then Except.ok "did:plc:root"
      else Except.error "unknown handle"
    getFollowsApi := fun a _ =>
      if a == "did:plc:root" then Except.ok [pA, pB, pC]
      else Except.error "no follows"
    getAuthorFeedApi := fun a _ _ =>
      if a == "did:plc:a" then
        Except.ok { feed := [entryW "did:plc:a" "t4", entryRootByA]
                    cursor := some "curA" }
      else if a == "did:plc:b" then
        Except.ok { feed := [entryW "did:plc:b" "t2"], cursor := none }
      else Except.error "feed unavailable"
    getTime := fun s =>
      if s == "t2" then 2 else if s == "t4" then 4
      else if s == "t9" then 9 else 0 }

/-- A concrete environment in which every per-account feed fetch fails. -/
def envFail : Env :=
  { resolveHandleApi := fun h =>
      if h == "root.test" then Except.ok "did:plc:root"
      else Except.error "unknown handle"
    getFollowsApi := fun a _ =>
      if a == "did:plc:root" then Except.ok [pA, pB]
      else Except.error "no follows"
    getAuthorFeedApi := fun _ _ _ => Except.error "down"
    getTime := fun _ => 0 }

/-- The merged run of `envW` for `root.test` with no input cursor map. -/
def runW : MergedRun :=
  match getMergedTimelineRun envW "root.test" none with
  | Except.ok r => r
  | Except.error _ => { requests := [], result := { posts := [], cursorMap := [] } }

/-- The merged result of `envW` for `root.test` with no input cursor map. -/
def resW : MergedResult := runW.result

/-- An input cursor map holding a token for each of `pA` and `pB`. -/
def cmW : CursorMap := [("did:plc:a", "tokA"), ("did:plc:b", "tokB")]

/-- The merged run of `envW` for `root.test` resuming from `cmW`. -/
def runW2 : MergedRun :=
  match getMergedTimelineRun envW "root.test" (some cmW) with
  | Except.ok r => r
  | Except.error _ => { requests := [], result := { posts := [], cursorMap := [] } }

/-! ### Helper lemmas about the cursor map -/

theorem mapGet_mapSet (m : CursorMap) (k v q : String) :
    mapGet (mapSet m k v) q = if k = q then some v else mapGet m q := by
  induction m with
  | nil =>
      by_cases h : k = q <;> simp [mapSet, mapGet, h]
  | cons p rest ih =>
      obtain ⟨k', v'⟩ := p
      by_cases hk : k' = k
      · subst hk
        by_cases hq : k' = q <;> simp [mapSet, mapGet, hq]
      · by_cases hq : k' = q
        · subst hq
          have : ¬ k = k' := fun h => hk h.symm
          simp [mapSet, mapGet, hk, this]
        · simp [mapSet, mapGet, hk, hq, ih]

/-! ### Helper lemmas about a single fetch -/

theorem fetchAccount_fst (env : Env) (cm : Option CursorMap) (f : Profile) :
    (fetchAccount env cm f).1 = mkRequest cm f := by
  simp only [fetchAccount]
  split <;> rfl

theorem fetchAccount_tok (env : Env) (cm : Option CursorMap) (f : Profile) :
    (fetchAccount env cm f).2.2 = tokenOf env cm f.did := by
  unfold fetchAccount tokenOf
  cases h : env.getAuthorFeedApi f.did 10 (cursorFor cm f.did) <;>
    simp [mkRequest, h]

/-! ### Helper lemmas about one batch -/

theorem processBatch_fst (env : Env) (cm : Option CursorMap) :
    ∀ (batch : List Profile) (ncm : CursorMap),
      (processBatch env cm batch ncm).1 = batch.map (mkRequest cm)
  | [], _ => rfl
  | f :: rest, ncm => by
      simp [processBatch, fetchAccount_fst, processBatch_fst env cm rest]

theorem processBatch_feeds (env : Env) (cm : Option CursorMap) :
    ∀ (batch : List Profile) (ncm : CursorMap),
      (processBatch env cm batch ncm).2.1 = batch.flatMap (feedOf env cm)
  | [], _ => rfl
  | f :: rest, ncm => by
      simp [processBatch, feedOf, processBatch_feeds env cm rest]

theorem processBatch_mapGet (env : Env) (cm : Option CursorMap) :
    ∀ (batch : List Profile) (ncm : CursorMap) (d : String),
      mapGet (processBatch env cm batch ncm).2.2 d =
        (if d ∈ batch.map Profile.did then tokenOf env cm d else none).or
          (mapGet ncm d)
  | [], ncm, d => by simp [processBatch]
  | f :: rest, ncm, d => by
      have ih := processBatch_mapGet env cm rest
      have htok := fetchAccount_tok env cm f
      simp only [processBatch]
      rw [htok, ih]
      cases h : tokenOf env cm f.did with
      | none =>
          dsimp only
          by_cases hd : d = f.did
          · have hT : tokenOf env cm d = none := by rw [hd]; exact h
            rw [hT, ite_self, ite_self]
          · have hiff : (d ∈ (f :: rest).map Profile.did) ↔ d ∈ rest.map Profile.did := by
              simp [List.map_cons, List.mem_cons, hd]
            rw [if_congr hiff rfl rfl]
      | some c =>
          dsimp only
          by_cases hd : d = f.did
          · have hT : tokenOf env cm d = some c := by rw [hd]; exact h
            have hA' : d ∈ (f :: rest).map Profile.did := by
              rw [List.map_cons]
              exact List.mem_cons.mpr (Or.inl hd)
            rw [hT, mapGet_mapSet, if_pos hd.symm, if_pos hA']
            by_cases hA : d ∈ rest.map Profile.did
            · rw [if_pos hA]; rfl
            · rw [if_neg hA]; rfl
          · have hiff : (d ∈ (f :: rest).map Profile.did) ↔ d ∈ rest.map Profile.did := by
              simp [List.map_cons, List.mem_cons, hd]
            have hfd : ¬ f.did = d := fun hh => hd hh.symm
            rw [mapGet_mapSet, if_neg hfd, if_congr hiff rfl rfl]

/-! ### The batching loop as a sequential fold over the batch partition -/

theorem mergeLoop_eq_chunkFold (env : Env) (did : String)
    (cm : Option CursorMap) :
    ∀ (follows : List Profile) (ncm : CursorMap),
      mergeLoop env did cm follows ncm =
        chunkFold env did cm (chunksOf5 follows) ncm
  | [], ncm => by simp [mergeLoop, chunksOf5, chunkFold]
  | [a], ncm => by simp [mergeLoop, chunksOf5, chunkFold]
  | [a, b], ncm => by simp [mergeLoop, chunksOf5, chunkFold]
  | [a, b, c], ncm => by simp [mergeLoop, chunksOf5, chunkFold]
  | [a, b, c, d], ncm => by simp [mergeLoop, chunksOf5, chunkFold]
  | a :: b :: c :: d :: e :: rest, ncm => by
      have ih := mergeLoop_eq_chunkFold env did cm rest
      simp [mergeLoop, chunksOf5, chunkFold, ih]

theorem chunksOf5_flatten {α : Type _} :
    ∀ l : List α, (chunksOf5 l).flatten = l
  | [] => rfl
  | [a] => rfl
  | [a, b] => rfl
  | [a, b, c] => rfl
  | [a, b, c, d] => rfl
  | a :: b :: c :: d :: e :: rest => by
      simp [chunksOf5, chunksOf5_flatten rest]

theorem chunksOf5_map_length {α : Type _} :
    ∀ l : List α, (chunksOf5 l).map List.length = batchSizes l.length
  | [] => rfl
  | [a] => rfl
  | [a, b] => rfl
  | [a, b, c] => rfl
  | [a, b, c, d] => rfl
  | a :: b :: c :: d :: e :: rest => by
      have ih := chunksOf5_map_length rest
      simp only [chunksOf5, List.map_cons, List.length_cons, ih]
      rfl

theorem batchSizes_mem : ∀ n : Nat, ∀ s ∈ batchSizes n, 1 ≤ s ∧ s ≤ 5
  | 0 => by simp [batchSizes]
  | 1 => by simp [batchSizes]
  | 2 => by simp [batchSizes]
  | 3 => by simp [batchSizes]
  | 4 => by simp [batchSizes]
  | n + 5 => by
      intro s hs
      rcases List.mem_cons.mp hs with h5 | hrest
      · omega
      · exact batchSizes_mem n s hrest

theorem batchSizes_dropLast : ∀ n : Nat, ∀ s ∈ (batchSizes n).dropLast, s = 5
  | 0 => by simp [batchSizes]
  | 1 => by simp [batchSizes]
  | 2 => by simp [batchSizes]
  | 3 => by simp [batchSizes]
  | 4 => by simp [batchSizes]
  | n + 5 => by
      intro s hs
      cases hn : batchSizes n with
      | nil =>
          rw [batchSizes, hn] at hs
          simp at hs
      | cons x xs =>
          rw [batchSizes, hn, List.dropLast_cons₂] at hs
          rcases List.mem_cons.mp hs with h5 | hrest
          · exact h5
          · exact batchSizes_dropLast n s (hn ▸ hrest)

/-! ### Components of a full run -/

theorem chunkFold_fst (env : Env) (did : String) (cm : Option CursorMap) :
    ∀ (cs : List (List Profile)) (ncm : CursorMap),
      (chunkFold env did cm cs ncm).1 = cs.flatten.map (mkRequest cm)
  | [], _ => rfl
  | batch :: rest, ncm => by
      simp [chunkFold, stepBatch, processBatch_fst,
        chunkFold_fst env did cm rest]

theorem chunkFold_posts (env : Env) (did : String) (cm : Option CursorMap) :
    ∀ (cs : List (List Profile)) (ncm : CursorMap),
      (chunkFold env did cm cs ncm).2.1 =
        ((cs.flatten.flatMap (feedOf env cm)).filter
            (fun f => f.post.author.did != did)).map projectEntry
  | [], _ => rfl
  | batch :: rest, ncm => by
      simp [chunkFold, stepBatch, processBatch_feeds,
        chunkFold_posts env did cm rest, List.flatMap_append, List.filter_append]

theorem ite_tok_or (A B : Prop) [Decidable A] [Decidable B]
    (t x : Option String) :
    (if A then t else none).or ((if B then t else none).or x) =
      (if A ∨ B then t else none).or x := by
  by_cases hA : A <;> by_cases hB : B <;> cases t <;>
    simp [hA, hB, Option.none_or, Option.or_none]

theorem chunkFold_mapGet (env : Env) (did : String) (cm : Option CursorMap) :
    ∀ (cs : List (List Profile)) (ncm : CursorMap) (d : String),
      mapGet (chunkFold env did cm cs ncm).2.2 d =
        (if d ∈ cs.flatten.map Profile.did then tokenOf env cm d else none).or
          (mapGet ncm d)
  | [], ncm, d => by simp [chunkFold]
  | batch :: rest, ncm, d => by
      have ih := chunkFold_mapGet env did cm rest
      have hb := processBatch_mapGet env cm batch ncm d
      simp only [chunkFold]
      rw [ih]
      have hstep : (stepBatch env did cm batch ncm).2.2 =
          (processBatch env cm batch ncm).2.2 := rfl
      rw [hstep, hb, ite_tok_or]
      have hiff : (d ∈ rest.flatten.map Profile.did ∨ d ∈ batch.map Profile.did)
          ↔ d ∈ (batch :: rest).flatten.map Profile.did := by
        simp [List.flatten_cons, List.map_append, List.mem_append, or_comm]
      rw [if_congr hiff rfl rfl]

theorem mergeLoop_fst (env : Env) (did : String) (cm : Option CursorMap)
    (follows : List Profile) (ncm : CursorMap) :
    (mergeLoop env did cm follows ncm).1 = follows.map (mkRequest cm) := by
  rw [mergeLoop_eq_chunkFold, chunkFold_fst, chunksOf5_flatten]

theorem mergeLoop_posts (env : Env) (did : String) (cm : Option CursorMap)
    (follows : List Profile) (ncm : CursorMap) :
    (mergeLoop env did cm follows ncm).2.1 =
      ((follows.flatMap (feedOf env cm)).filter
          (fun f => f.post.author.did != did)).map projectEntry := by
  rw [mergeLoop_eq_chunkFold, chunkFold_posts, chunksOf5_flatten]

theorem mergeLoop_mapGet (env : Env) (did : String) (cm : Option CursorMap)
    (follows : List Profile) (d : String) :
    mapGet (mergeLoop env did cm follows []).2.2 d =
      if d ∈ follows.map Profile.did then tokenOf env cm d else none := by
  rw [mergeLoop_eq_chunkFold, chunkFold_mapGet, chunksOf5_flatten]
  exact Option.or_none

theorem getMergedTimelineRun_eq (env : Env) (handle : String)
    (cm : Option CursorMap) (did : String) (fs : List Profile)
    (hres : resolveHandle env handle = Except.ok did)
    (hf : env.getFollowsApi did 30 = Except.ok fs) :
    getMergedTimelineRun env handle cm = Except.ok
      { requests := (mergeLoop env did cm (fs.filter visibleProfile) []).1
        result :=
          { posts := List.insertionSort (postLE env)
              ((mergeLoop env did cm (fs.filter visibleProfile) []).2.1)
            cursorMap := (mergeLoop env did cm (fs.filter visibleProfile) []).2.2 } } := by
  simp only [getMergedTimelineRun, hres, hf]

/-! ### Extraction of a successful run -/

theorem run_of_ok (env : Env) (handle : String) (cm : Option CursorMap)
    (did : String) (fs : List Profile) (run : MergedRun)
    (hres : resolveHandle env handle = Except.ok did)
    (hf : env.getFollowsApi did 30 = Except.ok fs)
    (hrun : getMergedTimelineRun env handle cm = Except.ok run) :
    run = { requests := (mergeLoop env did cm (fs.filter visibleProfile) []).1
            result :=
              { posts := List.insertionSort (postLE env)
                  ((mergeLoop env did cm (fs.filter visibleProfile) []).2.1)
                cursorMap :=
                  (mergeLoop env did cm (fs.filter visibleProfile) []).2.2 } } := by
  have h := getMergedTimelineRun_eq env handle cm did fs hres hf
  rw [hrun] at h
  exact Except.ok.inj h

theorem result_of_ok (env : Env) (handle : String) (cm : Option CursorMap)
    (did : String) (fs : List Profile) (res : MergedResult)
    (hres : resolveHandle env handle = Except.ok did)
    (hf : env.getFollowsApi did 30 = Except.ok fs)
    (h : getMergedTimeline env handle cm = Except.ok res) :
    res = { posts := List.insertionSort (postLE env)
              ((mergeLoop env did cm (fs.filter visibleProfile) []).2.1)
            cursorMap := (mergeLoop env did cm (fs.filter visibleProfile) []).2.2 } := by
  unfold getMergedTimeline at h
  rw [getMergedTimelineRun_eq env handle cm did fs hres hf] at h
  simp only [Except.map] at h
  exact (Except.ok.inj h).symm

theorem getMergedTimeline_ok_cases (env : Env) (handle : String)
    (cm : Option CursorMap) (res : MergedResult)
    (h : getMergedTimeline env handle cm = Except.ok res) :
    ∃ did fs, resolveHandle env handle = Except.ok did ∧
      env.getFollowsApi did 30 = Except.ok fs ∧
      res = { posts := List.insertionSort (postLE env)
                ((mergeLoop env did cm (fs.filter visibleProfile) []).2.1)
              cursorMap := (mergeLoop env did cm (fs.filter visibleProfile) []).2.2 } := by
  cases hres : resolveHandle env handle with
  | error e =>
      simp only [getMergedTimeline, getMergedTimelineRun, hres, Except.map] at h
      exact Except.noConfusion h
  | ok did =>
      cases hf : env.getFollowsApi did 30 with
      | error e =>
          simp only [getMergedTimeline, getMergedTimelineRun, hres, hf,
            Except.map] at h
          exact Except.noConfusion h
      | ok fs =>
          exact ⟨did, fs, rfl, hf,
            result_of_ok env handle cm did fs res hres hf h⟩

theorem mem_posts_iff (env : Env) (did : String) (cm : Option CursorMap)
    (follows : List Profile) (p : Post) :
    p ∈ List.insertionSort (postLE env) ((mergeLoop env did cm follows []).2.1) ↔
      ∃ f ∈ follows.flatMap (feedOf env cm),
        f.post.author.did ≠ did ∧ p = projectEntry f := by
  rw [List.mem_insertionSort, mergeLoop_posts]
  constructor
  · intro hp
    obtain ⟨f, hf, rfl⟩ := List.mem_map.mp hp
    obtain ⟨hfm, hfneq⟩ := List.mem_filter.mp hf
    exact ⟨f, hfm, bne_iff_ne.mp hfneq, rfl⟩
  · rintro ⟨f, hfm, hne, rfl⟩
    exact List.mem_map.mpr ⟨f, List.mem_filter.mpr ⟨hfm, bne_iff_ne.mpr hne⟩, rfl⟩

/-! ### Claim theorems -/

/-- C1: for every input handle and optional input cursor map, the post
sequence returned by `getMergedTimeline` is sorted by parsed indexing
timestamp (`indexedAt`) in non-increasing (newest-first) order. -/
theorem merged_posts_sorted (env : Env) (handle : String) (cm : Option CursorMap)
    (res : MergedResult) (h : getMergedTimeline env handle cm = Except.ok res) :
    res.posts.Pairwise
      (fun a b => env.getTime b.indexedAt ≤ env.getTime a.indexedAt) := by
  obtain ⟨did, fs, hres, hf, hEq⟩ := getMergedTimeline_ok_cases env handle cm res h
  subst hEq
  haveI : IsTotal Post (postLE env) := ⟨fun a b => le_total _ _⟩
  haveI : IsTrans Post (postLE env) := ⟨fun _ _ _ h1 h2 => le_trans h2 h1⟩
  exact List.sorted_insertionSort (postLE env) _

theorem merged_posts_sorted_witness :
    resW.posts.Pairwise
      (fun a b => envW.getTime b.indexedAt ≤ envW.getTime a.indexedAt) :=
  merged_posts_sorted envW "root.test" none resW (by rfl)

/-- C2: no post in the merged timeline has an author identifier equal to the
resolved root account identifier. -/
theorem merged_no_root_author (env : Env) (handle : String)
    (cm : Option CursorMap) (did : String) (res : MergedResult)
    (hres : resolveHandle env handle = Except.ok did)
    (h : getMergedTimeline env handle cm = Except.ok res) :
    ∀ p ∈ res.posts, p.author.did ≠ did := by
  obtain ⟨did', fs, hres', hf, hEq⟩ := getMergedTimeline_ok_cases env handle cm res h
  have hdd : did' = did := by
    rw [hres] at hres'
    exact (Except.ok.inj hres').symm
  subst hdd
  subst hEq
  intro p hp
  have hp' : p ∈ List.insertionSort (postLE env)
      ((mergeLoop env did' cm (fs.filter visibleProfile) []).2.1) := hp
  obtain ⟨f, _, hne, rfl⟩ :=
    (mem_posts_iff env did' cm (fs.filter visibleProfile) p).mp hp'
  exact hne

theorem merged_no_root_author_witness :
    (projectEntry (entryW "did:plc:b" "t2")).author.did ≠ "did:plc:root" :=
  merged_no_root_author envW "root.test" none "did:plc:root" resW (by rfl) (by rfl)
    (projectEntry (entryW "did:plc:b" "t2")) (by decide)

/-- C6: an input that already has the fully-qualified `did:` form is returned
unchanged, independently of the collaborator; any other input is resolved by
the collaborator and its answer (value or error) is returned unchanged. -/
theorem resolveHandle_spec (env : Env) (handle : String) :
    (strStartsWith handle "did:" = true →
        resolveHandle env handle = Except.ok handle) ∧
    (strStartsWith handle "did:" = false →
        resolveHandle env handle = env.resolveHandleApi handle) := by
  constructor <;> intro h <;> simp [resolveHandle, h]

theorem resolveHandle_spec_witness :
    resolveHandle envW "did:plc:zzz" = Except.ok "did:plc:zzz" ∧
    resolveHandle envW "root.test" = envW.resolveHandleApi "root.test" :=
  ⟨(resolveHandle_spec envW "did:plc:zzz").1 (by decide),
   (resolveHandle_spec envW "root.test").2 (by decide)⟩

/-- C3: an individual account's feed-fetch failure is absorbed as an empty
result; in particular when every per-account fetch fails `getMergedTimeline`
still resolves, with an empty post sequence and an empty cursor map, so no
failed account contributes a cursor entry. -/
theorem merged_fetch_failures_absorbed (env : Env) (handle : String)
    (cm : Option CursorMap) (did : String) (fs : List Profile)
    (hres : resolveHandle env handle = Except.ok did)
    (hf : env.getFollowsApi did 30 = Except.ok fs) :
    (∃ res, getMergedTimeline env handle cm = Except.ok res) ∧
    (∀ res, getMergedTimeline env handle cm = Except.ok res →
        ∀ d, (∃ e, env.getAuthorFeedApi d 10 (cursorFor cm d) = Except.error e) →
          mapGet res.cursorMap d = none) ∧
    ((∀ a l c, ∃ e, env.getAuthorFeedApi a l c = Except.error e) →
        getMergedTimeline env handle cm =
          Except.ok { posts := [], cursorMap := [] }) := by
  refine ⟨?_, ?_, ?_⟩
  · exact ⟨_, by
      unfold getMergedTimeline
      rw [getMergedTimelineRun_eq env handle cm did fs hres hf]
      rfl⟩
  · intro res hok d hd
    obtain ⟨e, he⟩ := hd
    have htok : tokenOf env cm d = none := by
      simp [tokenOf, he]
    rw [result_of_ok env handle cm did fs res hres hf hok]
    show mapGet (mergeLoop env did cm (fs.filter visibleProfile) []).2.2 d = none
    rw [mergeLoop_mapGet]
    by_cases hmem : d ∈ (fs.filter visibleProfile).map Profile.did
    · rw [if_pos hmem, htok]
    · rw [if_neg hmem]
  · intro hfail
    have hfeed : ∀ f : Profile, feedOf env cm f = [] := by
      intro f
      obtain ⟨e, he⟩ := hfail f.did 10 (cursorFor cm f.did)
      simp [feedOf, fetchAccount, mkRequest, he]
    have htokn : ∀ f : Profile, (fetchAccount env cm f).2.2 = none := by
      intro f
      obtain ⟨e, he⟩ := hfail f.did 10 (cursorFor cm f.did)
      simp [fetchAccount, mkRequest, he]
    have hpb : ∀ (batch : List Profile) (ncm : CursorMap),
        (processBatch env cm batch ncm).2.2 = ncm := by
      intro batch
      induction batch with
      | nil => intro ncm; rfl
      | cons f rest ih =>
          intro ncm
          simp only [processBatch, htokn f]
          exact ih ncm
    have hcf : ∀ (cs : List (List Profile)) (ncm : CursorMap),
        (chunkFold env did cm cs ncm).2.2 = ncm := by
      intro cs
      induction cs with
      | nil => intro ncm; rfl
      | cons batch rest ih =>
          intro ncm
          simp only [chunkFold]
          rw [ih]
          exact hpb batch ncm
    have hflatAll : ∀ l : List Profile, l.flatMap (feedOf env cm) = [] := by
      intro l
      induction l with
      | nil => rfl
      | cons f rest ih => simp [List.flatMap_cons, hfeed, ih]
    have hposts : (mergeLoop env did cm (fs.filter visibleProfile) []).2.1 = [] := by
      rw [mergeLoop_posts, hflatAll]
      rfl
    have hmapempty :
        (mergeLoop env did cm (fs.filter visibleProfile) []).2.2 = [] := by
      rw [mergeLoop_eq_chunkFold]
      exact hcf _ _
    unfold getMergedTimeline
    rw [getMergedTimelineRun_eq env handle cm did fs hres hf]
    simp only [Except.map]
    rw [hposts, hmapempty]
    rfl

theorem merged_fetch_failures_absorbed_witness :
    getMergedTimeline envFail "root.test" none =
      Except.ok { posts := [], cursorMap := [] } :=
  (merged_fetch_failures_absorbed envFail "root.test" none "did:plc:root"
    [pA, pB] (by rfl) (by rfl)).2.2 (fun _ _ _ => ⟨"down", rfl⟩)

/-- C4: each followed account's feed fetch is issued with exactly that
account's own token from the input cursor map (or no cursor when the map has
no entry for it); no account receives another account's token. -/
theorem merged_cursor_routing (env : Env) (handle : String)
    (cm : Option CursorMap) (did : String) (fs : List Profile) (run : MergedRun)
    (hres : resolveHandle env handle = Except.ok did)
    (hf : env.getFollowsApi did 30 = Except.ok fs)
    (hrun : getMergedTimelineRun env handle cm = Except.ok run) :
    run.requests = (fs.filter visibleProfile).map (fun f =>
      { actor := f.did
        limit := 10
        cursor := cursorFor cm f.did }) := by
  rw [run_of_ok env handle cm did fs run hres hf hrun]
  show (mergeLoop env did cm (fs.filter visibleProfile) []).1 = _
  rw [mergeLoop_fst]
  rfl

theorem merged_cursor_routing_witness :
    runW2.requests =
      [{ actor := "did:plc:a", limit := 10, cursor := some "tokA" },
       { actor := "did:plc:b", limit := 10, cursor := some "tokB" }] := by
  have h := merged_cursor_routing envW "root.test" (some cmW) "did:plc:root"
    [pA, pB, pC] runW2 (by rfl) (by rfl) (by rfl)
  rw [h]
  decide

/-- C5: the filtered follow list is partitioned into consecutive batches of
fixed size five (the final batch holding the remainder, 23 follows giving
sizes `[5, 5, 5, 5, 3]`), batches are processed sequentially, and per-batch
results are concatenated in input order within a batch and in batch order
across batches. -/
theorem merged_batching :
    (∀ (env : Env) (did : String) (cm : Option CursorMap)
        (follows : List Profile) (ncm : CursorMap),
        mergeLoop env did cm follows ncm =
          chunkFold env did cm (chunksOf5 follows) ncm) ∧
    (∀ follows : List Profile, (chunksOf5 follows).flatten = follows) ∧
    (∀ follows : List Profile,
        (chunksOf5 follows).map List.length = batchSizes follows.length) ∧
    (∀ n : Nat, ∀ s ∈ batchSizes n, 1 ≤ s ∧ s ≤ 5) ∧
    (∀ n : Nat, ∀ s ∈ (batchSizes n).dropLast, s = 5) ∧
    batchSizes 23 = [5, 5, 5, 5, 3] :=
  ⟨mergeLoop_eq_chunkFold, chunksOf5_flatten, chunksOf5_map_length,
   batchSizes_mem, batchSizes_dropLast, by decide⟩

theorem merged_batching_witness :
    mergeLoop envW "did:plc:root" none [pA, pB, pC] [] =
      chunkFold envW "did:plc:root" none (chunksOf5 [pA, pB, pC]) [] ∧
    (1 ≤ 3 ∧ 3 ≤ 5) :=
  ⟨merged_batching.1 envW "did:plc:root" none [pA, pB, pC] [],
   merged_batching.2.2.2.1 23 3 (by decide)⟩

/-- C7: a followed account carrying the `!no-unauthenticated` label is dropped
before fetching — never queried, contributing zero posts to the merged result
(every merged post originates in the feed of a queried account with a
different identifier), and absent from the output cursor map — while accounts
with no labels or without that marker are kept in collaborator order. -/
theorem merged_label_filtering (env : Env) (handle : String)
    (cm : Option CursorMap) (did : String) (fs : List Profile) (run : MergedRun)
    (hres : resolveHandle env handle = Except.ok did)
    (hf : env.getFollowsApi did 30 = Except.ok fs)
    (hrun : getMergedTimelineRun env handle cm = Except.ok run) :
    (∀ p : Profile, visibleProfile p = true ↔
        (p.labels = none ∨
          ∃ ls, p.labels = some ls ∧
            ∀ lab ∈ ls, lab.val ≠ "!no-unauthenticated")) ∧
    run.requests.map FeedRequest.actor =
      (fs.filter visibleProfile).map Profile.did ∧
    (∀ p ∈ fs, visibleProfile p = false →
        (∀ q ∈ fs, q.did = p.did → visibleProfile q = false) →
        p.did ∉ run.requests.map FeedRequest.actor ∧
          mapGet run.result.cursorMap p.did = none ∧
          (∀ post ∈ run.result.posts,
            ∃ q, q ∈ fs.filter visibleProfile ∧ q.did ≠ p.did ∧
              ∃ f ∈ feedOf env cm q, post = projectEntry f)) := by
  have hrunEq := run_of_ok env handle cm did fs run hres hf hrun
  refine ⟨?_, ?_, ?_⟩
  · intro p
    cases hl : p.labels with
    | none => simp [visibleProfile, hl]
    | some ls => simp [visibleProfile, hl]
  · rw [hrunEq]
    show ((mergeLoop env did cm (fs.filter visibleProfile) []).1).map
        FeedRequest.actor = _
    rw [mergeLoop_fst, List.map_map]
    rfl
  · intro p hp hvis hall
    have hnotmem : p.did ∉ (fs.filter visibleProfile).map Profile.did := by
      intro hmem
      obtain ⟨q, hq, hqd⟩ := List.mem_map.mp hmem
      obtain ⟨hqfs, hqvis⟩ := List.mem_filter.mp hq
      simp [hall q hqfs hqd] at hqvis
    refine ⟨?_, ?_, ?_⟩
    · rw [hrunEq]
      show p.did ∉ ((mergeLoop env did cm (fs.filter visibleProfile) []).1).map
          FeedRequest.actor
      rw [mergeLoop_fst, List.map_map]
      exact hnotmem
    · rw [hrunEq]
      show mapGet (mergeLoop env did cm (fs.filter visibleProfile) []).2.2
          p.did = none
      rw [mergeLoop_mapGet]
      exact if_neg hnotmem
    · intro post hpost
      rw [hrunEq] at hpost
      have hp' : post ∈ List.insertionSort (postLE env)
          ((mergeLoop env did cm (fs.filter visibleProfile) []).2.1) := hpost
      obtain ⟨f, hfm, _, hpe⟩ :=
        (mem_posts_iff env did cm (fs.filter visibleProfile) post).mp hp'
      obtain ⟨q, hq, hfq⟩ := List.mem_flatMap.mp hfm
      refine ⟨q, hq, ?_, f, hfq, hpe⟩
      intro hqd
      obtain ⟨hqfs, hqvis⟩ := List.mem_filter.mp hq
      simp [hall q hqfs hqd] at hqvis

theorem merged_label_filtering_witness :
    ("did:plc:c" ∉ runW.requests.map FeedRequest.actor ∧
        mapGet runW.result.cursorMap "did:plc:c" = none) ∧
      ∃ q, q ∈ [pA, pB, pC].filter visibleProfile ∧ q.did ≠ "did:plc:c" ∧
        ∃ f ∈ feedOf envW none q,
          projectEntry (entryW "did:plc:b" "t2") = projectEntry f := by
  have h := merged_label_filtering envW "root.test" none "did:plc:root"
    [pA, pB, pC] runW (by rfl) (by rfl) (by rfl)
  have h3 := h.2.2 pC (by decide) (by decide) (by decide)
  exact ⟨⟨h3.1, h3.2.1⟩,
    h3.2.2 (projectEntry (entryW "did:plc:b" "t2")) (by decide)⟩

/-- C8: the returned cursor map is freshly built from this call's fetches —
it holds an entry exactly for each queried (visible) account whose fetch
returned a continuation token, with that token as value, and nothing else;
the caller's input map is a separate unchanged value. -/
theorem merged_cursorMap_fresh (env : Env) (handle : String)
    (cm : Option CursorMap) (did : String) (fs : List Profile)
    (res : MergedResult)
    (hres : resolveHandle env handle = Except.ok did)
    (hf : env.getFollowsApi did 30 = Except.ok fs)
    (h : getMergedTimeline env handle cm = Except.ok res) :
    ∀ d, mapGet res.cursorMap d =
      if d ∈ (fs.filter visibleProfile).map Profile.did
      then tokenOf env cm d else none := by
  intro d
  rw [result_of_ok env handle cm did fs res hres hf h]
  show mapGet (mergeLoop env did cm (fs.filter visibleProfile) []).2.2 d = _
  exact mergeLoop_mapGet env did cm (fs.filter visibleProfile) d

theorem merged_cursorMap_fresh_witness :
    mapGet resW.cursorMap "did:plc:a" =
      (if "did:plc:a" ∈ ([pA, pB, pC].filter visibleProfile).map Profile.did
       then tokenOf envW none "did:plc:a" else none) :=
  merged_cursorMap_fresh envW "root.test" none "did:plc:root" [pA, pB, pC]
    resW (by rfl) (by rfl) (by rfl) "did:plc:a"

/-- C9: in both `getMergedTimeline` and `getUserTimeline` every raw feed
entry is projected by `projectEntry`, whose `repostedBy` field holds the
reason actor's `did`, `handle` and `displayName` exactly when the entry's
reason tag marks a repost, and is absent otherwise. -/
theorem repostedBy_projection :
    (∀ (env : Env) (actor : String) (resp : FeedResponse),
        env.getAuthorFeedApi actor 20 none = Except.ok resp →
        getUserTimeline env actor = Except.ok (resp.feed.map projectEntry)) ∧
    (∀ (f : FeedEntry) (r : Reason), f.reason = some r →
        r.«$type» = "app.bsky.feed.defs#skeletonReasonRepost" →
        (projectEntry f).repostedBy =
          some { did := r.«by».did, handle := r.«by».handle
                 displayName := r.«by».displayName }) ∧
    (∀ f : FeedEntry,
        (∀ r, f.reason = some r →
            r.«$type» ≠ "app.bsky.feed.defs#skeletonReasonRepost") →
        (projectEntry f).repostedBy = none) ∧
    (∀ (env : Env) (handle : String) (cm : Option CursorMap) (did : String)
        (fs : List Profile) (run : MergedRun),
        resolveHandle env handle = Except.ok did →
        env.getFollowsApi did 30 = Except.ok fs →
        getMergedTimelineRun env handle cm = Except.ok run →
        ∀ p ∈ run.result.posts,
          ∃ f ∈ (fs.filter visibleProfile).flatMap (feedOf env cm),
            p = projectEntry f) := by
  refine ⟨?_, ?_, ?_, ?_⟩
  · intro env actor resp hok
    simp [getUserTimeline, getAuthorFeed, hok, Except.map]
  · intro f r hr htype
    simp [projectEntry, hr, htype]
  · intro f hall
    cases hr : f.reason with
    | none => simp [projectEntry, hr]
    | some r =>
        have hne := hall r hr
        simp [projectEntry, hr, hne]
  · intro env handle cm did fs run hres hf hrun p hp
    rw [run_of_ok env handle cm did fs run hres hf hrun] at hp
    have hp' : p ∈ List.insertionSort (postLE env)
        ((mergeLoop env did cm (fs.filter visibleProfile) []).2.1) := hp
    obtain ⟨f, hfm, _, hpe⟩ :=
      (mem_posts_iff env did cm (fs.filter visibleProfile) p).mp hp'
    exact ⟨f, hfm, hpe⟩

theorem repostedBy_projection_witness :
    getUserTimeline envW "did:plc:a" =
      Except.ok ([entryW "did:plc:a" "t4", entryRootByA].map projectEntry) :=
  repostedBy_projection.1 envW "did:plc:a"
    { feed := [entryW "did:plc:a" "t4", entryRootByA], cursor := some "curA" }
    (by rfl)

/-- C10: the self-post exclusion keys only on the raw entry's post author
identifier: an entry whose underlying post was authored by the root account
never reaches the merged posts (even as someone else's repost), while every
fetched entry whose post author differs from the root — including a follow's
repost of a third party — is projected into the merged posts. -/
theorem merged_exclusion_by_post_author (env : Env) (handle : String)
    (cm : Option CursorMap) (did : String) (fs : List Profile) (run : MergedRun)
    (hres : resolveHandle env handle = Except.ok did)
    (hf : env.getFollowsApi did 30 = Except.ok fs)
    (hrun : getMergedTimelineRun env handle cm = Except.ok run) :
    (∀ f ∈ (fs.filter visibleProfile).flatMap (feedOf env cm),
        f.post.author.did ≠ did → projectEntry f ∈ run.result.posts) ∧
    (∀ p ∈ run.result.posts,
        ∃ f ∈ (fs.filter visibleProfile).flatMap (feedOf env cm),
          p = projectEntry f ∧ f.post.author.did ≠ did) := by
  have hrunEq := run_of_ok env handle cm did fs run hres hf hrun
  constructor
  · intro f hfm hne
    rw [hrunEq]
    show projectEntry f ∈ List.insertionSort (postLE env)
        ((mergeLoop env did cm (fs.filter visibleProfile) []).2.1)
    exact (mem_posts_iff env did cm (fs.filter visibleProfile) _).mpr
      ⟨f, hfm, hne, rfl⟩
  · intro p hp
    rw [hrunEq] at hp
    have hp' : p ∈ List.insertionSort (postLE env)
        ((mergeLoop env did cm (fs.filter visibleProfile) []).2.1) := hp
    obtain ⟨f, hfm, hne, hpe⟩ :=
      (mem_posts_iff env did cm (fs.filter visibleProfile) p).mp hp'
    exact ⟨f, hfm, hpe, hne⟩

theorem merged_exclusion_by_post_author_witness :
    projectEntry (entryW "did:plc:b" "t2") ∈ runW.result.posts := by
  have h := merged_exclusion_by_post_author envW "root.test" none
    "did:plc:root" [pA, pB, pC] runW (by rfl) (by rfl) (by rfl)
  exact h.1 (entryW "did:plc:b" "t2") (by decide) (by decide)
